import Mathlib

/-!
Verification development for the JPG Optimizer Pro repository
(src/app.py, the Streamlit web front end, and
src/desktop/jpg_optimizer_pro.py, the Tkinter desktop application).

Byte strings are embedded as `List Nat` with entries below 256.  Fallible
Python operations (constructs such as `bytes([a, b])` that raise on
out-of-range values) are embedded as `Option`-returning functions, `none`
standing for a raised exception.  Calls into external collaborators
(Pillow, MozJPEG cjpeg/djpeg, jpegtran, piexif) are embedded at the
interface boundary described in section 6 of the specification: the
embedding records exactly the parameters and metadata the repository code
hands to, or recovers from, each collaborator.
-/

/-- Bytes are natural numbers; well-formed streams have entries < 256. -/
abbrev Byte := Nat

/-- Maximum ICC payload bytes per APP2 chunk: `65533 - 14` = 65519
(src/app.py line 449, desktop line 933). -/
def maxChunkData : Nat := 65533 - 14

/-- The 12-byte APP2 signature: ASCII "ICC_PROFILE" followed by NUL. -/
def iccSignature : List Byte := [73, 67, 67, 95, 80, 82, 79, 70, 73, 76, 69, 0]

/-- Big-endian two-byte encoding, as Python `int.to_bytes(2, 'big')`.
All call sites in the source pass values of at most 65535. -/
def toBytes2BE (n : Nat) : List Byte := [n / 256 % 256, n % 256]

/-- Python `bytes([a, b])`: raises `ValueError` when a value is 256 or
more, embedded as `none`. -/
def bytesPair (a b : Nat) : Option (List Byte) :=
  if a ≤ 255 ∧ b ≤ 255 then some [a, b] else none

/-- One APP2 marker segment wrapping one ICC chunk:
`0xFFE2`, two length bytes counting themselves plus the payload, the
12-byte signature, the 1-byte chunk sequence number, the 1-byte total
chunk count, then the chunk data (src/app.py lines 447-456). -/
def app2Segment (seq tot : Nat) (chunkData : List Byte) : List Byte :=
  let markerData := iccSignature ++ [seq, tot] ++ chunkData
  [255, 226] ++ toBytes2BE (markerData.length + 2) ++ markerData

/-- Option-valued map over a list, aborting at the first failure; embeds a
Python loop that appends to a list and may raise mid-way. -/
def optionMap (f : α → Option β) : List α → Option (List β)
  | [] => some []
  | x :: xs =>
    match f x with
    | none => none
    | some y => (optionMap f xs).map (y :: ·)

/-- The i-th 65519-byte slice `icc_data[i*m : (i+1)*m]` of the profile
(src/app.py line 462). -/
def chunkAt (iccData : List Byte) (i : Nat) : List Byte :=
  (iccData.drop (i * maxChunkData)).take maxChunkData

/-- The total chunk count `(len(icc_data) + m - 1) // m`
(src/app.py line 460). -/
def totalChunksOf (iccData : List Byte) : Nat :=
  (iccData.length + maxChunkData - 1) / maxChunkData

/-- The APP2 segment block built inside `inject_icc_profile`
(src/app.py lines 447-467; identically desktop lines 931-951): a single
chunk when the profile fits in 65519 bytes, otherwise ceiling-division
chunks with 1-based sequence numbers; Python `bytes([i + 1, total_chunks])`
raises when the count exceeds 255, embedded as `none`. -/
def buildApp2Block (iccData : List Byte) : Option (List Byte) :=
  if iccData.length ≤ maxChunkData then
    some (app2Segment 1 1 iccData)
  else
    let totalChunks := totalChunksOf iccData
    (optionMap (fun i =>
      (bytesPair (i + 1) totalChunks).map (fun seqTot =>
        let markerData := iccSignature ++ seqTot ++ chunkAt iccData i
        [255, 226] ++ toBytes2BE (markerData.length + 2) ++ markerData))
      (List.range totalChunks)).map List.flatten

/-- `inject_icc_profile` (src/app.py lines 437-470).  A falsy profile
argument (Python `None` or `b''`, embedded as `[]`) and bytes not starting
with the FFD8 Start-Of-Image marker are guards returning the input
unchanged; otherwise the APP2 block is spliced in right after the first
two bytes.  `none` embeds a raised exception. -/
def inject_icc_profile (jpegData iccData : List Byte) : Option (List Byte) :=
  if iccData = [] then some jpegData
  else if jpegData.take 2 ≠ [255, 216] then some jpegData
  else (buildApp2Block iccData).map
    (fun seg => jpegData.take 2 ++ seg ++ jpegData.drop 2)

/-- Desktop `_inject_icc_profile` (jpg_optimizer_pro.py lines 918-957):
reads the file, returns without writing on either guard, otherwise writes
the spliced bytes back.  The value is the file content after the call. -/
def inject_icc_profile_file (fileContent iccData : List Byte) : Option (List Byte) :=
  if iccData = [] then some fileContent
  else if fileContent.take 2 ≠ [255, 216] then some fileContent
  else (buildApp2Block iccData).map
    (fun seg => fileContent.take 2 ++ seg ++ fileContent.drop 2)

/-- Python truthiness of an optional byte string: `None` and `b''` are
falsy, so conditions such as `if icc_profile:` pass exactly the values
this function maps to `some`. -/
def truthy (o : Option (List Byte)) : Option (List Byte) :=
  match o with
  | some b => if b = [] then none else some b
  | none => none

/-- Modelled from the spec: the repository delegates ICC extraction to the
external image library (`img.info.get('icc_profile')`, src/app.py lines
429-434), whose reader is specified only at the interface boundary in
sections 4.1 and 6: locate APP2 segments by scanning markers after
Start-Of-Image, match the 12-byte "ICC_PROFILE" + NUL signature, and read
the chunk sequence number, total count and data of each.  `scanBody`
handles one marker segment and hands the rest of the stream to `next`:
marker bytes 192 to 254 other than RST0-RST7, SOI, EOI and SOS carry a
self-inclusive two-byte big-endian length and are skipped or, for APP2
with the ICC signature, collected; anything else ends the scan. -/
def scanBody (next : List Byte → List (Nat × Nat × List Byte)) :
    List Byte → List (Nat × Nat × List Byte)
  | 255 :: m :: rest =>
    if 192 ≤ m ∧ m ≤ 254 ∧ ¬(208 ≤ m ∧ m ≤ 218) then
      match rest with
      | hi :: lo :: body =>
        let segLen := hi * 256 + lo
        if segLen < 2 then []
        else
          let payload := body.take (segLen - 2)
          let tailBytes := rest.drop segLen
          if m = 226 ∧ payload.take 12 = iccSignature then
            match payload.drop 12 with
            | seq :: tot :: chunkData => (seq, tot, chunkData) :: next tailBytes
            | _ => next tailBytes
          else next tailBytes
      | _ => []
    else []
  | _ => []

/-- Modelled from the spec: iterate `scanBody`, one marker segment per
fuel unit. -/
def scanAux : Nat → List Byte → List (Nat × Nat × List Byte)
  | 0, _ => []
  | fuel + 1, bs => scanBody (scanAux fuel) bs

/-- Modelled from the spec: collect the ICC chunks of a marker stream;
each scanned segment consumes at least four bytes, so fuel equal to the
length of the stream always suffices. -/
def scanChunks (bs : List Byte) : List (Nat × Nat × List Byte) :=
  scanAux bs.length bs

/-- Modelled from the spec: validation of a collected chunk list —
1-based consecutive sequence numbers all sharing one total count. -/
def checkSeq (tot : Nat) : Nat → List (Nat × Nat × List Byte) → Bool
  | _, [] => true
  | expect, (seq, t, _) :: rest => seq == expect && t == tot && checkSeq tot (expect + 1) rest

/-- Modelled from the spec: `extract_icc` at the consumer side — on bytes
starting with Start-Of-Image, collect the APP2 ICC chunks, check that
they are numbered 1..total in ascending order, and reassemble the profile
by concatenating the chunk data; `none` when absent or malformed (the
contract in section 4.1 returns none rather than raising). -/
def extract_icc_profile (bs : List Byte) : Option (List Byte) :=
  if bs.take 2 = [255, 216] then
    match scanChunks (bs.drop 2) with
    | [] => none
    | (seq₁, tot, d₁) :: restChunks =>
      if ((seq₁, tot, d₁) :: restChunks).length = tot ∧
          checkSeq tot 1 ((seq₁, tot, d₁) :: restChunks) = true then
        some (((seq₁, tot, d₁) :: restChunks).map (fun c => c.2.2)).flatten
      else none
  else none

/-- Per-file size outcome: the size of the bytes left at the destination
and the saved-bytes figure the function reports to its caller (a Python
int, so possibly negative). -/
structure SizeOutcome where
  finalSize : Nat
  reportedSaved : Int
deriving DecidableEq

/-- The size-guard tail shared by the guarded desktop paths
(jpg_optimizer_pro.py lines 843-851, 887-895, 1006-1016 and 1068-1077):
move the new file only when strictly smaller, otherwise remove it, copy
the original to the destination and report zero saved. -/
def guardedSizeStep (originalSize newSize : Nat) : SizeOutcome :=
  if newSize < originalSize then
    ⟨newSize, (originalSize : Int) - (newSize : Int)⟩
  else
    ⟨originalSize, 0⟩

/-- The web main-loop size guard applied to every mode
(src/app.py lines 683-689): when the optimized bytes are not smaller, the
original bytes replace them before sizes and savings are recorded. -/
def webSizeStep (originalSize newSize : Nat) : SizeOutcome :=
  let optimizedSize := if originalSize ≤ newSize then originalSize else newSize
  ⟨optimizedSize, (originalSize : Int) - (optimizedSize : Int)⟩

/-- The tail of the desktop `optimize_maximum` Pillow fallback
(jpg_optimizer_pro.py lines 1107-1114): the freshly saved file is moved
to the destination unconditionally and `original_size - new_size` is
returned, with no size comparison at all. -/
def maximumFallbackSizeStep (originalSize newSize : Nat) : SizeOutcome :=
  ⟨newSize, (originalSize : Int) - (newSize : Int)⟩

/-- The encoder parameters and metadata a Pillow `img.save` call receives
from the repository: the quality, the `subsampling` keyword when set, 
whether `ImageFilter.UnsharpMask(radius=0.5, percent=20, threshold=2)`
was applied to the pixels first, and the optional `exif` / `icc_profile`
keywords.  By the collaborator contract of section 6, the saved JPEG
carries EXIF or ICC exactly when the corresponding keyword is passed. -/
structure PillowSave where
  quality : Nat
  subsampling : Option Nat
  sharpened : Bool
  exif : Option (List Byte)
  icc : Option (List Byte)
deriving DecidableEq

/-- `optimize_with_pillow` (src/app.py lines 473-506); the desktop
`_optimize_with_pillow` (lines 1028-1066) builds the same save call from
the same inputs.  ICC is read unconditionally, EXIF only when
`remove_metadata` is false; both enter the save keywords only when
truthy; quality below 90 selects subsampling 2 (4:2:0) and applies the
unsharp mask, quality 90 and above selects subsampling 0 (4:4:4) with no
filter. -/
def optimize_with_pillow (srcIcc srcExif : Option (List Byte)) (quality : Nat)
    (removeMetadata : Bool) : PillowSave :=
  let iccProfile := srcIcc
  let exifData := if removeMetadata then none else srcExif
  { quality := quality
    subsampling := some (if 90 ≤ quality then 0 else 2)
    sharpened := decide (quality < 90)
    exif := truthy exifData
    icc := truthy iccProfile }

/-- The desktop `optimize_lossless` Pillow fallback (jpg_optimizer_pro.py
lines 856-884), used when jpegtran is unavailable: re-encode at quality
100 with no `subsampling` keyword and no filter, EXIF per configuration,
ICC always. -/
def optimize_lossless_pillow_fallback (srcIcc srcExif : Option (List Byte))
    (removeMetadata : Bool) : PillowSave :=
  let exifData := if removeMetadata then none else srcExif
  { quality := 100
    subsampling := none
    sharpened := false
    exif := truthy exifData
    icc := truthy srcIcc }

/-- The desktop `optimize_maximum` Pillow fallback save call
(jpg_optimizer_pro.py lines 1086-1109): quality fixed at 70, subsampling
fixed at 2, no filter applied, and — unlike every other path — the
source EXIF is never read and never passed, regardless of the
remove-metadata setting; only ICC is carried over.  The unused arguments
record what the source had available but the code ignores. -/
def optimize_maximum_fallback (srcIcc _srcExif : Option (List Byte))
    (_removeMetadata : Bool) : PillowSave :=
  let iccProfile := srcIcc
  { quality := 70
    subsampling := some 2
    sharpened := false
    exif := none
    icc := truthy iccProfile }

/-- Metadata content of the bytes produced by the MozJPEG djpeg/cjpeg
pipeline after the repository's repair steps, plus whether the cjpeg
command line carried `-sample 1x1` (4:4:4; cjpeg otherwise defaults to
4:2:0). -/
structure MozjpegOutput where
  sample444 : Bool
  exif : Option (List Byte)
  icc : Option (List Byte)
deriving DecidableEq

/-- `optimize_with_mozjpeg` (src/app.py lines 509-549); the desktop
`_optimize_with_mozjpeg` (lines 959-1004) performs the same sequence.
The ICC profile is extracted from the original bytes before the djpeg
decode; the djpeg→cjpeg pair emits bytes carrying no metadata; EXIF is
then re-inserted from the original via piexif unless `remove_metadata`
(read failures degrade silently; the success case is embedded); finally
the ICC profile, when truthy, is injected into the encoded bytes. -/
def optimize_with_mozjpeg (srcIcc srcExif : Option (List Byte)) (quality : Nat)
    (removeMetadata : Bool) : MozjpegOutput :=
  let iccProfile := srcIcc
  let encoded : MozjpegOutput :=
    { sample444 := decide (90 ≤ quality), exif := none, icc := none }
  let withExif :=
    if removeMetadata then encoded
    else
      match truthy srcExif with
      | some e => { encoded with exif := some e }
      | none => encoded
  match truthy iccProfile with
  | some p => { withExif with icc := some p }
  | none => withExif

/-- Metadata content of the bytes produced by the jpegtran lossless path. -/
structure TranscodeOutput where
  exif : Option (List Byte)
  icc : Option (List Byte)
deriving DecidableEq

/-- The jpegtran branch of `optimize_lossless` (src/app.py lines 564-592;
desktop lines 826-851): the ICC profile is extracted from the original
first; jpegtran runs with `-copy all` (keeps all source metadata) when
EXIF is kept, `-copy none` (strips everything) when `remove_metadata` is
set; afterwards, exactly when `remove_metadata` is set and the extracted
profile is truthy, the profile is injected back into the transcoded
bytes. -/
def optimize_lossless_jpegtran (srcIcc srcExif : Option (List Byte))
    (removeMetadata : Bool) : TranscodeOutput :=
  let iccProfile := srcIcc
  let transcoded : TranscodeOutput :=
    if removeMetadata then ⟨none, none⟩ else ⟨srcExif, srcIcc⟩
  if removeMetadata then
    match truthy iccProfile with
    | some p => { transcoded with icc := some p }
    | none => transcoded
  else transcoded

/-- What a lossless-mode invocation does with its input. -/
inductive LosslessAction where
  | transcode (copyAll : Bool)
  | pillowReencode (quality : Nat)
  | returnOriginal
deriving DecidableEq

/-- Dispatch of the web `optimize_lossless` (src/app.py lines 552-562):
when no jpegtran binary is found the function returns the original bytes
unchanged. -/
def web_lossless_action (hasJpegtran removeMetadata : Bool) : LosslessAction :=
  if hasJpegtran then .transcode (!removeMetadata) else .returnOriginal

/-- Dispatch of the desktop `optimize_lossless` (jpg_optimizer_pro.py
lines 822-858): when jpegtran is unavailable the image is decoded and
re-encoded through Pillow at quality 100. -/
def desktop_lossless_action (hasJpegtran removeMetadata : Bool) : LosslessAction :=
  if hasJpegtran then .transcode (!removeMetadata) else .pillowReencode 100

/-- Python `str(n).zfill(4)` for a natural number: the decimal digits
left-padded with zeros to at least four characters. -/
def zfill4 (n : Nat) : String :=
  let s := toString n
  (List.replicate (4 - s.length) '0').asString ++ s

/-- Replace every non-overlapping occurrence of `pat` (nonempty) in the
subject, scanning left to right; the fuel argument bounds the number of
steps and is instantiated with the subject length, which suffices because
every step consumes at least one character. -/
def replaceChars (pat repl : List Char) : Nat → List Char → List Char
  | 0, s => s
  | _ + 1, [] => []
  | fuel + 1, c :: rest =>
    if pat.isPrefixOf (c :: rest) ∧ pat ≠ [] then
      repl ++ replaceChars pat repl fuel ((c :: rest).drop pat.length)
    else
      c :: replaceChars pat repl fuel rest

/-- String-level wrapper for `replaceChars`. -/
def replaceStr (s pat repl : String) : String :=
  (replaceChars pat.toList repl.toList s.toList.length s.toList).asString

/-- Python `template.format(name=..., date=..., counter=...)`
(jpg_optimizer_pro.py lines 804-808) for templates made of literal text
and the three recognized fields: each placeholder is replaced by its
value. -/
def formatTemplate (template name date counter : String) : String :=
  replaceStr (replaceStr (replaceStr template "{name}" name) "{date}" date)
    "{counter}" counter

/-- `os.path.join` for a directory with no trailing separator. -/
def pathJoin (dir fileName : String) : String := dir ++ "/" ++ fileName

/-- The conflict-resolution loop of `generate_output_path`
(jpg_optimizer_pro.py lines 812-818): while the candidate exists and is
not the original path, retry with `name_part + "_" + str(counter) + ext`,
where `name_part` is the extension-stripped base candidate (constant
across iterations) and the counter starts at 1.  Disk existence is
embedded as membership in `existing`; the fuel bounds the iterations of
the Python `while` loop. -/
def conflictLoop (existing : List String) (originalPath namePart ext : String) :
    Nat → String → Nat → String
  | 0, cur, _ => cur
  | fuel + 1, cur, k =>
    if cur ∈ existing ∧ cur ≠ originalPath then
      conflictLoop existing originalPath namePart ext fuel
        (namePart ++ "_" ++ toString k ++ ext) (k + 1)
    else cur

/-- The run configuration fields `generate_output_path` consults. -/
structure OutputConfig where
  outputFolder : Option String
  overwriteOriginal : Bool
  namingTemplate : String

/-- Desktop `generate_output_path` (jpg_optimizer_pro.py lines 772-820)
for `preserve_subfolders` unset (the subfolder-mirroring branch delegates
to `os.path.relpath` and is outside this embedding).  The source path is
passed pre-split into directory, extension-free name and extension, as
`os.path.dirname` / `os.path.splitext` / `os.path.basename` produce them;
`name_part` in the conflict loop is the output directory joined with the
templated name, which equals `os.path.splitext` of the base candidate for
the nonempty dot-extensions the splits produce.  `counterVal` is the
value the shared counter took under the counter lock; disk existence is
embedded as membership in `existing`. -/
def generate_output_path (cfg : OutputConfig) (existing : List String)
    (originalDir originalName ext originalPath dateStr : String)
    (counterVal : Nat) : String :=
  let outputDir := cfg.outputFolder.getD originalDir
  if cfg.overwriteOriginal then originalPath
  else
    let newName := formatTemplate cfg.namingTemplate originalName dateStr (zfill4 counterVal)
    let outputPath := pathJoin outputDir (newName ++ ext)
    conflictLoop existing originalPath (pathJoin outputDir newName) ext
      (existing.length + 1) outputPath 1

/-- The path candidates the conflict loop can visit from a state: the
current candidate, then the disambiguated names from the counter on up. -/
def candidateSeq (namePart ext cur : String) (k : Nat) : Nat → String
  | 0 => cur
  | j + 1 => namePart ++ "_" ++ toString (k + j) ++ ext

/-- A path the conflict loop may stop at: it does not exist, or it is the
original path. -/
def freePath (existing : List String) (originalPath s : String) : Prop :=
  s ∉ existing ∨ s = originalPath

/-- C1: the claim says every per-file result of every mode satisfies
final_size ≤ original_size and bytes_saved ≥ 0, because after metadata
preservation the engine compares sizes and discards a result that is not
smaller.  The guarded desktop steps and the web main-loop guard do
satisfy this, but the desktop Maximum-mode Pillow fallback performs no
comparison: on an input whose quality-70 re-encode is larger (100 bytes
original, 101 bytes re-encoded), the destination receives the larger
file and the reported savings are negative. -/
theorem maximum_fallback_size_guard_missing :
    (∀ o n, (guardedSizeStep o n).finalSize ≤ o ∧ 0 ≤ (guardedSizeStep o n).reportedSaved) ∧
    (∀ o n, (webSizeStep o n).finalSize ≤ o ∧ 0 ≤ (webSizeStep o n).reportedSaved) ∧
    (maximumFallbackSizeStep 100 101).finalSize = 101 ∧
    (maximumFallbackSizeStep 100 101).reportedSaved = -1 := by
  refine ⟨fun o n => ?_, fun o n => ?_, by decide, by decide⟩
  · unfold guardedSizeStep
    split <;> constructor <;> simp <;> omega
  · unfold webSizeStep
    split <;> constructor <;> simp <;> omega

/-- C2: for every byte string that does not begin with the FFD8
Start-Of-Image marker and every non-empty ICC profile, both the
byte-level `inject_icc_profile` and the file-based desktop variant return
their input unchanged, and the guard never raises (the result is `some`,
never the `none` that embeds an exception). -/
theorem inject_icc_non_jpeg_unchanged (jpegData iccData : List Byte)
    (hicc : iccData ≠ []) (hsig : jpegData.take 2 ≠ [255, 216]) :
    inject_icc_profile jpegData iccData = some jpegData ∧
    inject_icc_profile_file jpegData iccData = some jpegData := by
  constructor
  · unfold inject_icc_profile
    rw [if_neg hicc, if_pos hsig]
  · unfold inject_icc_profile_file
    rw [if_neg hicc, if_pos hsig]

/-- Witness for C2 at the concrete non-JPEG bytes [0, 1] and profile [7]. -/
theorem inject_icc_non_jpeg_unchanged_witness :
    inject_icc_profile [0, 1] [7] = some [0, 1] ∧
    inject_icc_profile_file [0, 1] [7] = some [0, 1] :=
  inject_icc_non_jpeg_unchanged [0, 1] [7] (by decide) (by decide)

/-- C5 counterexample: the claim states EXIF is present in the output if
and only if remove_metadata is false and the source had EXIF, on every
backend of every mode.  The desktop Maximum-mode Pillow fallback never
reads or writes EXIF: with remove_metadata = false and a source carrying
EXIF bytes [9], its save call carries no EXIF, so the biconditional fails
at this concrete input. -/
theorem exif_iff_counterexample :
    ¬(((optimize_maximum_fallback (some [1]) (some [9]) false).exif ≠ none) ↔
      (false = false ∧ truthy (some [9]) ≠ none)) := by decide

/-- C5 as amended: EXIF presence obeys the claimed biconditional on the
web/desktop Pillow path, the MozJPEG path, the jpegtran lossless path and
the desktop lossless Pillow fallback — but the desktop Maximum-mode
Pillow fallback never carries EXIF, whatever the configuration and the
source.  (In particular, with remove_metadata = true no path ever carries
EXIF.) -/
theorem exif_presence_by_path (srcIcc srcExif : Option (List Byte))
    (quality : Nat) (removeMetadata : Bool) :
    ((optimize_with_pillow srcIcc srcExif quality removeMetadata).exif ≠ none ↔
      (removeMetadata = false ∧ truthy srcExif ≠ none)) ∧
    ((optimize_with_mozjpeg srcIcc srcExif quality removeMetadata).exif ≠ none ↔
      (removeMetadata = false ∧ truthy srcExif ≠ none)) ∧
    ((optimize_lossless_jpegtran srcIcc srcExif removeMetadata).exif ≠ none ↔
      (removeMetadata = false ∧ srcExif ≠ none)) ∧
    ((optimize_lossless_pillow_fallback srcIcc srcExif removeMetadata).exif ≠ none ↔
      (removeMetadata = false ∧ truthy srcExif ≠ none)) ∧
    (optimize_maximum_fallback srcIcc srcExif removeMetadata).exif = none := by
  rcases hE : truthy srcExif with _ | e <;> rcases hI : truthy srcIcc with _ | p <;>
    cases removeMetadata <;>
      simp [optimize_with_pillow, optimize_with_mozjpeg, optimize_lossless_jpegtran,
        optimize_lossless_pillow_fallback, optimize_maximum_fallback, hE, hI,
        show truthy none = none from rfl]

/-- C6: every mode and every backend carries a source ICC profile into
its output, whatever the remove_metadata setting: the Pillow paths pass
it to the save call, the MozJPEG path extracts it from the original bytes
before the decoder strips it and injects it into the final bytes, and the
jpegtran path either keeps it via copy-all or re-injects the beforehand
extracted profile after copy-none. -/
theorem icc_always_preserved (srcExif : Option (List Byte)) (quality : Nat)
    (removeMetadata : Bool) (p : List Byte) (hp : p ≠ []) :
    (optimize_with_pillow (some p) srcExif quality removeMetadata).icc = some p ∧
    (optimize_with_mozjpeg (some p) srcExif quality removeMetadata).icc = some p ∧
    (optimize_lossless_jpegtran (some p) srcExif removeMetadata).icc = some p ∧
    (optimize_lossless_pillow_fallback (some p) srcExif removeMetadata).icc = some p ∧
    (optimize_maximum_fallback (some p) srcExif removeMetadata).icc = some p := by
  have hI : truthy (some p) = some p := by simp [truthy, hp]
  rcases hE : truthy srcExif with _ | e <;> cases removeMetadata <;>
    simp [optimize_with_pillow, optimize_with_mozjpeg, optimize_lossless_jpegtran,
      optimize_lossless_pillow_fallback, optimize_maximum_fallback, hE, hI,
      show truthy none = none from rfl]

/-- Witness for C6 at a concrete one-byte profile, EXIF-less source,
quality 85, remove_metadata = false. -/
theorem icc_always_preserved_witness :
    (optimize_with_pillow (some [3]) none 85 false).icc = some [3] ∧
    (optimize_with_mozjpeg (some [3]) none 85 false).icc = some [3] ∧
    (optimize_lossless_jpegtran (some [3]) none false).icc = some [3] ∧
    (optimize_lossless_pillow_fallback (some [3]) none false).icc = some [3] ∧
    (optimize_maximum_fallback (some [3]) none false).icc = some [3] :=
  icc_always_preserved none 85 false [3] (by decide)

/-- C7 counterexample: the claim states that in Lossless mode with the
transcoder unavailable the engine falls back to re-encoding at quality
100 rather than skipping optimization; the web `optimize_lossless`
instead returns the original bytes unchanged when no jpegtran binary is
found. -/
theorem web_lossless_fallback_counterexample :
    ¬(web_lossless_action false false = .pillowReencode 100) := by decide

/-- C7 as amended: with jpegtran unavailable, the desktop engine falls
back to a Pillow re-encode at quality 100 with the same metadata rules —
EXIF kept exactly when remove_metadata is false, ICC always — while the
web engine returns the original bytes unchanged (skips optimization). -/
theorem lossless_fallback_behavior (srcIcc srcExif : Option (List Byte))
    (removeMetadata : Bool) :
    desktop_lossless_action false removeMetadata = .pillowReencode 100 ∧
    (optimize_lossless_pillow_fallback srcIcc srcExif removeMetadata).quality = 100 ∧
    (optimize_lossless_pillow_fallback srcIcc srcExif removeMetadata).exif =
      truthy (if removeMetadata then none else srcExif) ∧
    (optimize_lossless_pillow_fallback srcIcc srcExif removeMetadata).icc = truthy srcIcc ∧
    web_lossless_action false removeMetadata = .returnOriginal := by
  unfold desktop_lossless_action optimize_lossless_pillow_fallback web_lossless_action
  cases removeMetadata <;> simp

/-- C8 counterexample: the claim states that every lossy re-encode at
effective quality below 90 — including Maximum mode's fixed quality 70 —
has the unsharp-mask filter applied before encoding; the desktop
Maximum-mode Pillow fallback encodes at quality 70 with 4:2:0 subsampling
but applies no filter. -/
theorem maximum_fallback_no_sharpen_counterexample :
    (optimize_maximum_fallback none none false).quality = 70 ∧
    (optimize_maximum_fallback none none false).subsampling = some 2 ∧
    ¬((optimize_maximum_fallback none none false).sharpened = true) := by decide

/-- C8 as amended: on the shared Pillow encode path (web
`optimize_with_pillow` and desktop `_optimize_with_pillow`), quality at
least 90 selects full-resolution 4:4:4 chroma (subsampling 0) with no
sharpening, and quality below 90 selects 4:2:0 (subsampling 2) with the
unsharp mask applied; the MozJPEG command line carries `-sample 1x1`
(4:4:4) exactly when quality is at least 90 and otherwise leaves the
encoder's 4:2:0 default, with no sharpening stage at all; the desktop
Maximum-mode fallback encodes at quality 70 with subsampling 2 and does
not apply the unsharp mask. -/
theorem quality_policy_by_path (srcIcc srcExif : Option (List Byte))
    (quality : Nat) (removeMetadata : Bool) :
    ((optimize_with_pillow srcIcc srcExif quality removeMetadata).subsampling =
      some (if 90 ≤ quality then 0 else 2)) ∧
    ((optimize_with_pillow srcIcc srcExif quality removeMetadata).sharpened =
      decide (quality < 90)) ∧
    ((optimize_with_mozjpeg srcIcc srcExif quality removeMetadata).sample444 =
      decide (90 ≤ quality)) ∧
    (optimize_maximum_fallback srcIcc srcExif removeMetadata).quality = 70 ∧
    (optimize_maximum_fallback srcIcc srcExif removeMetadata).subsampling = some 2 ∧
    (optimize_maximum_fallback srcIcc srcExif removeMetadata).sharpened = false := by
  rcases hE : truthy srcExif with _ | e <;> rcases hI : truthy srcIcc with _ | p <;>
    cases removeMetadata <;>
      simp [optimize_with_pillow, optimize_with_mozjpeg, optimize_maximum_fallback, hE, hI,
        show truthy none = none from rfl]

/-- C10: injecting an absent or empty profile (Python None or b'',
embedded as the empty byte list) is the identity for the byte-level
variant and leaves the file content untouched for the file-based
variant; and whenever injection does occur, the output is exactly the
first two input bytes, then the built APP2 block, then all remaining
input bytes — the entire original stream is preserved around the
inserted block. -/
theorem inject_icc_identity_and_structure :
    (∀ jpegData : List Byte,
      inject_icc_profile jpegData [] = some jpegData ∧
      inject_icc_profile_file jpegData [] = some jpegData) ∧
    (∀ jpegData iccData out : List Byte,
      inject_icc_profile jpegData iccData = some out →
      iccData ≠ [] → jpegData.take 2 = [255, 216] →
      ∃ block, buildApp2Block iccData = some block ∧
        out = jpegData.take 2 ++ block ++ jpegData.drop 2 ∧
        jpegData.take 2 ++ jpegData.drop 2 = jpegData) := by
  constructor
  · intro jpegData
    constructor
    · unfold inject_icc_profile
      rw [if_pos rfl]
    · unfold inject_icc_profile_file
      rw [if_pos rfl]
  · intro jpegData iccData out hinj hicc hsig
    unfold inject_icc_profile at hinj
    rw [if_neg hicc, if_neg (by simp [hsig])] at hinj
    rcases Option.map_eq_some'.mp hinj with ⟨block, hblock, hout⟩
    exact ⟨block, hblock, hout.symm, jpegData.take_append_drop 2⟩

/-- Witness for C10 at the concrete JPEG [255, 216, 255, 217] and profile
[1, 2, 3]. -/
theorem inject_icc_identity_and_structure_witness :
    inject_icc_profile [255, 216] [] = some [255, 216] ∧
    ∃ block, buildApp2Block [1, 2, 3] = some block ∧
      [255, 216, 255, 226, 0, 19, 73, 67, 67, 95, 80, 82, 79, 70, 73, 76, 69, 0,
        1, 1, 1, 2, 3, 255, 217] =
        [255, 216, 255, 217].take 2 ++ block ++ [255, 216, 255, 217].drop 2 ∧
      [255, 216, 255, 217].take 2 ++ [255, 216, 255, 217].drop 2 = [255, 216, 255, 217] :=
  ⟨(inject_icc_identity_and_structure.1 [255, 216]).1,
   inject_icc_identity_and_structure.2 [255, 216, 255, 217] [1, 2, 3] _
     (by decide) (by decide) (by decide)⟩

theorem optionMap_eq_some {f : α → Option β} {g : α → β} :
    ∀ {l : List α}, (∀ x ∈ l, f x = some (g x)) → optionMap f l = some (l.map g)
  | [], _ => rfl
  | x :: xs, h => by
    have hx := h x (List.mem_cons_self x xs)
    have hxs := optionMap_eq_some (f := f) (g := g)
      (fun y hy => h y (List.mem_cons_of_mem x hy))
    simp [optionMap, hx, hxs]

theorem maxChunkData_pos : 0 < maxChunkData := by decide

theorem totalChunks_pos {iccData : List Byte} (h : iccData ≠ []) :
    1 ≤ totalChunksOf iccData := by
  have hlen : 1 ≤ iccData.length := List.length_pos.mpr h
  unfold totalChunksOf maxChunkData
  omega

theorem totalChunks_le_255 {iccData : List Byte}
    (h : iccData.length ≤ 255 * maxChunkData) : totalChunksOf iccData ≤ 255 := by
  unfold totalChunksOf maxChunkData at *
  omega

theorem totalChunks_gt_255 {iccData : List Byte}
    (h : 255 * maxChunkData < iccData.length) : 255 < totalChunksOf iccData := by
  unfold totalChunksOf maxChunkData at *
  omega

theorem length_le_totalChunks_mul (iccData : List Byte) :
    iccData.length ≤ totalChunksOf iccData * maxChunkData := by
  unfold totalChunksOf maxChunkData
  omega

theorem totalChunks_eq_one {iccData : List Byte} (hne : iccData ≠ [])
    (h : iccData.length ≤ maxChunkData) : totalChunksOf iccData = 1 := by
  have hlen : 1 ≤ iccData.length := List.length_pos.mpr hne
  unfold totalChunksOf maxChunkData at *
  omega

theorem chunkAt_length_le (iccData : List Byte) (i : Nat) :
    (chunkAt iccData i).length ≤ maxChunkData := by
  simp only [chunkAt, List.length_take]
  exact min_le_left _ _

theorem buildApp2Block_eq {iccData : List Byte} (hne : iccData ≠ [])
    (hlen : iccData.length ≤ 255 * maxChunkData) :
    buildApp2Block iccData =
      some (((List.range (totalChunksOf iccData)).map
        (fun i => app2Segment (i + 1) (totalChunksOf iccData) (chunkAt iccData i))).flatten) := by
  by_cases hsmall : iccData.length ≤ maxChunkData
  · rw [totalChunks_eq_one hne hsmall]
    have hr : List.range 1 = [0] := rfl
    simp only [buildApp2Block, if_pos hsmall, hr, List.map_cons, List.map_nil,
      List.flatten_cons, List.flatten_nil, List.append_nil]
    have hchunk : chunkAt iccData 0 = iccData := by
      simp [chunkAt, List.take_of_length_le hsmall]
    rw [hchunk]
  · have h255 := totalChunks_le_255 hlen
    have hmap := optionMap_eq_some
      (f := fun i => (bytesPair (i + 1) (totalChunksOf iccData)).map (fun seqTot =>
          let markerData := iccSignature ++ seqTot ++ chunkAt iccData i
          [255, 226] ++ toBytes2BE (markerData.length + 2) ++ markerData))
      (g := fun i => app2Segment (i + 1) (totalChunksOf iccData) (chunkAt iccData i))
      (l := List.range (totalChunksOf iccData))
      (fun i hi => by
        have hi' : i < totalChunksOf iccData := List.mem_range.mp hi
        have hpair : bytesPair (i + 1) (totalChunksOf iccData) =
            some [i + 1, totalChunksOf iccData] := by
          unfold bytesPair
          rw [if_pos ⟨by omega, by omega⟩]
        simp only [hpair, Option.map_some']
        rfl)
    simp only [buildApp2Block, if_neg hsmall]
    rw [hmap]
    rfl

theorem buildApp2Block_none {iccData : List Byte}
    (hlen : 255 * maxChunkData < iccData.length) : buildApp2Block iccData = none := by
  have hbig : ¬iccData.length ≤ maxChunkData := by
    unfold maxChunkData at *
    omega
  have h255 := totalChunks_gt_255 hlen
  obtain ⟨t, ht⟩ : ∃ t, totalChunksOf iccData = t + 1 :=
    ⟨totalChunksOf iccData - 1, by omega⟩
  have hfail : bytesPair (0 + 1) (totalChunksOf iccData) = none := by
    unfold bytesPair
    rw [if_neg]
    omega
  simp only [buildApp2Block, if_neg hbig]
  rw [ht] at hfail ⊢
  rw [List.range_succ_eq_map]
  simp [optionMap, hfail]

theorem scanBody_congr {next₁ next₂ : List Byte → List (Nat × Nat × List Byte)} :
    ∀ bs : List Byte, (∀ cs : List Byte, cs.length < bs.length → next₁ cs = next₂ cs) →
      scanBody next₁ bs = scanBody next₂ bs := by
  intro bs h
  rw [scanBody.eq_def, scanBody.eq_def]
  split
  · next m rest =>
    have hlt : ∀ n : Nat, (rest.drop n).length < (255 :: m :: rest).length := by
      intro n
      simp [List.length_drop]
      omega
    split
    · split
      · dsimp only
        split
        · rfl
        · split
          · split
            · rw [h _ (hlt _)]
            · rw [h _ (hlt _)]
          · rw [h _ (hlt _)]
      · rfl
    · rfl
  · rfl

theorem scanAux_nil : ∀ f, scanAux f ([] : List Byte) = [] := by
  intro f
  cases f <;> rfl

theorem scanAux_fuel_eq : ∀ f₁ : Nat, ∀ bs : List Byte, ∀ f₂ : Nat,
    bs.length ≤ f₁ → bs.length ≤ f₂ → scanAux f₁ bs = scanAux f₂ bs := by
  intro f₁
  induction f₁ using Nat.strong_induction_on with
  | _ f₁ ih =>
    intro bs f₂ h1 h2
    cases bs with
    | nil => rw [scanAux_nil, scanAux_nil]
    | cons b bs' =>
      obtain ⟨g, rfl⟩ : ∃ g, f₁ = g + 1 := ⟨f₁ - 1, by simp at h1; omega⟩
      obtain ⟨k, rfl⟩ : ∃ k, f₂ = k + 1 := ⟨f₂ - 1, by simp at h2; omega⟩
      show scanBody (scanAux g) (b :: bs') = scanBody (scanAux k) (b :: bs')
      apply scanBody_congr
      intro cs hcs
      simp at h1 h2 hcs
      exact ih g (by omega) cs k (by omega) (by omega)

theorem scanChunks_eq_scanAux {bs : List Byte} {f : Nat} (h : bs.length ≤ f) :
    scanChunks bs = scanAux f bs :=
  scanAux_fuel_eq bs.length bs f (le_refl _) h

theorem scanBody_app2 (next : List Byte → List (Nat × Nat × List Byte))
    (seq tot : Nat) (d tail : List Byte) (hd : d.length ≤ maxChunkData) :
    scanBody next (app2Segment seq tot d ++ tail) = (seq, tot, d) :: next tail := by
  have hdle : d.length ≤ 65519 := hd
  have h16 : (iccSignature ++ [seq, tot] ++ d).length + 2 = d.length + 16 := by
    simp [iccSignature]
    try omega
  have happ : app2Segment seq tot d =
      [255, 226] ++ toBytes2BE (d.length + 16) ++ (iccSignature ++ [seq, tot] ++ d) := by
    simp only [app2Segment]
    rw [h16]
  have hform : app2Segment seq tot d ++ tail =
      255 :: 226 :: ((d.length + 16) / 256 % 256) :: ((d.length + 16) % 256) ::
        ((iccSignature ++ [seq, tot] ++ d) ++ tail) := by
    rw [happ]
    simp [toBytes2BE]
  rw [hform, scanBody.eq_def]
  dsimp only
  have hseg : (d.length + 16) / 256 % 256 * 256 + (d.length + 16) % 256 = d.length + 16 := by
    omega
  rw [hseg]
  rw [if_pos (show 192 ≤ 226 ∧ 226 ≤ 254 ∧ ¬(208 ≤ 226 ∧ 226 ≤ 218) by norm_num)]
  rw [if_neg (show ¬(d.length + 16 < 2) by omega)]
  have htake : List.take (d.length + 16 - 2) (iccSignature ++ [seq, tot] ++ d ++ tail) =
      iccSignature ++ [seq, tot] ++ d :=
    List.take_left' (by simp [iccSignature])
  rw [htake]
  have htake12 : List.take 12 (iccSignature ++ [seq, tot] ++ d) = iccSignature := by
    rw [List.append_assoc]
    exact List.take_left' (by decide)
  rw [if_pos ⟨rfl, htake12⟩]
  have hdrop12 : List.drop 12 (iccSignature ++ [seq, tot] ++ d) = seq :: tot :: d := by
    rw [List.append_assoc, List.drop_left' (by decide)]
    rfl
  rw [hdrop12]
  have hsplit16 : d.length + 16 = d.length + 14 + 1 + 1 := by omega
  have hdroptail : List.drop (d.length + 16)
      ((d.length + 16) / 256 % 256 :: (d.length + 16) % 256 ::
        (iccSignature ++ [seq, tot] ++ d ++ tail)) = tail := by
    rw [hsplit16, List.drop_succ_cons, List.drop_succ_cons]
    exact List.drop_left' (by simp [iccSignature])
  rw [hdroptail]

theorem app2Segment_length (seq tot : Nat) (d : List Byte) :
    (app2Segment seq tot d).length = d.length + 18 := by
  simp [app2Segment, toBytes2BE, iccSignature]

theorem scanChunks_app2 (seq tot : Nat) (d tail : List Byte)
    (hd : d.length ≤ maxChunkData) :
    scanChunks (app2Segment seq tot d ++ tail) = (seq, tot, d) :: scanChunks tail := by
  have hlen : (app2Segment seq tot d ++ tail).length = tail.length + (d.length + 18) := by
    simp [app2Segment_length]
    omega
  obtain ⟨n, hn⟩ : ∃ n, (app2Segment seq tot d ++ tail).length = n + 1 :=
    ⟨(app2Segment seq tot d ++ tail).length - 1, by omega⟩
  rw [scanChunks, hn]
  show scanBody (scanAux n) _ = _
  rw [scanBody_app2 _ _ _ _ _ hd]
  rw [show scanAux n tail = scanChunks tail from
    (scanAux_fuel_eq n tail tail.length (by omega) (le_refl _)).trans
      (scanAux_fuel_eq tail.length tail tail.length (le_refl _) (le_refl _))]

theorem scanChunks_flatten_app2 (tot : Nat) (g : Nat → List Byte)
    (hg : ∀ i, (g i).length ≤ maxChunkData) :
    ∀ (idxs : List Nat) (tail : List Byte),
      scanChunks ((idxs.map (fun i => app2Segment (i + 1) tot (g i))).flatten ++ tail) =
        idxs.map (fun i => (i + 1, tot, g i)) ++ scanChunks tail := by
  intro idxs
  induction idxs with
  | nil =>
    intro tail
    simp
  | cons i is ih =>
    intro tail
    simp only [List.map_cons, List.flatten_cons, List.append_assoc]
    rw [scanChunks_app2 _ _ _ _ (hg i), ih]
    rfl

theorem checkSeq_range'_map (tot : Nat) (g : Nat → List Byte) :
    ∀ n k : Nat,
      checkSeq tot (k + 1) ((List.range' k n).map (fun i => (i + 1, tot, g i))) = true := by
  intro n
  induction n with
  | zero => intro k; rfl
  | succ n ih =>
    intro k
    rw [List.range'_succ]
    simp [checkSeq, ih (k + 1)]

theorem checkSeq_range_map (tot : Nat) (g : Nat → List Byte) (n : Nat) :
    checkSeq tot 1 ((List.range n).map (fun i => (i + 1, tot, g i))) = true := by
  have := checkSeq_range'_map tot g n 0
  rwa [List.range_eq_range']

theorem flatten_chunkAt : ∀ (n : Nat) (l : List Byte), l.length ≤ n * maxChunkData →
    ((List.range n).map (chunkAt l)).flatten = l := by
  intro n
  induction n with
  | zero =>
    intro l hl
    rw [Nat.zero_mul] at hl
    have : l = [] := List.eq_nil_of_length_eq_zero (Nat.le_zero.mp hl)
    simp [this]
  | succ n ih =>
    intro l hl
    rw [List.range_succ_eq_map]
    simp only [List.map_cons, List.map_map, List.flatten_cons]
    have h0 : chunkAt l 0 = l.take maxChunkData := by
      simp [chunkAt]
    have hcomp : ∀ i : Nat, (chunkAt l ∘ Nat.succ) i = chunkAt (l.drop maxChunkData) i := by
      intro i
      have harg : Nat.succ i * maxChunkData = maxChunkData + i * maxChunkData := by
        unfold maxChunkData
        omega
      simp only [Function.comp_apply, chunkAt, List.drop_drop, harg]
    rw [List.map_congr_left (fun i _ => hcomp i)]
    have hrec : ((List.range n).map (chunkAt (l.drop maxChunkData))).flatten =
        l.drop maxChunkData := by
      apply ih
      unfold maxChunkData at hl ⊢
      simp only [List.length_drop]
      omega
    rw [hrec, h0, List.take_append_drop]

theorem inject_icc_eq_block {jpegData iccData : List Byte}
    (hsig : jpegData.take 2 = [255, 216]) (hicc : iccData ≠ [])
    (hlen : iccData.length ≤ 255 * maxChunkData) :
    inject_icc_profile jpegData iccData =
      some (jpegData.take 2 ++
        ((List.range (totalChunksOf iccData)).map
          (fun i => app2Segment (i + 1) (totalChunksOf iccData) (chunkAt iccData i))).flatten ++
        jpegData.drop 2) := by
  unfold inject_icc_profile
  rw [if_neg hicc, if_neg (by simp [hsig]), buildApp2Block_eq hicc hlen]
  rfl

theorem extract_of_scan (bs : List Byte) (T : Nat) (g : Nat → List Byte)
    (hT : 1 ≤ T) (htake : bs.take 2 = [255, 216])
    (hscan : scanChunks (bs.drop 2) = (List.range T).map (fun i => (i + 1, T, g i))) :
    extract_icc_profile bs = some ((List.range T).map g).flatten := by
  unfold extract_icc_profile
  rw [if_pos htake, hscan]
  obtain ⟨t, rfl⟩ : ∃ t, T = t + 1 := ⟨T - 1, by omega⟩
  have hcons : (List.range (t + 1)).map (fun i => (i + 1, t + 1, g i)) =
      (0 + 1, t + 1, g 0) ::
        (List.map Nat.succ (List.range t)).map (fun i => (i + 1, t + 1, g i)) := by
    rw [List.range_succ_eq_map]
    rfl
  rw [hcons]
  dsimp only
  rw [if_pos ?cond]
  case cond =>
    constructor
    · rw [← hcons]
      simp
    · rw [← hcons]
      exact checkSeq_range_map (t + 1) g (t + 1)
  rw [← hcons]
  simp only [List.map_map]
  rfl

/-- C4: for valid JPEG bytes carrying no ICC chunks of their own and any
non-empty profile of at most 255 chunks (covering sizes below and above
65519 bytes), extracting after injecting returns the profile
byte-identically: multi-chunk splitting and reassembly round-trip. -/
theorem icc_roundtrip_extract_inject (jpegData iccData : List Byte)
    (hsig : jpegData.take 2 = [255, 216])
    (hclean : scanChunks (jpegData.drop 2) = [])
    (hicc : iccData ≠ []) (hlen : iccData.length ≤ 255 * maxChunkData) :
    ∃ out, inject_icc_profile jpegData iccData = some out ∧
      extract_icc_profile out = some iccData := by
  refine ⟨_, inject_icc_eq_block hsig hicc hlen, ?_⟩
  have hT1 := totalChunks_pos hicc
  have hout : jpegData.take 2 ++
      ((List.range (totalChunksOf iccData)).map
        (fun i => app2Segment (i + 1) (totalChunksOf iccData) (chunkAt iccData i))).flatten ++
      jpegData.drop 2 =
      [255, 216] ++
        (((List.range (totalChunksOf iccData)).map
          (fun i => app2Segment (i + 1) (totalChunksOf iccData) (chunkAt iccData i))).flatten ++
        jpegData.drop 2) := by
    rw [hsig, List.append_assoc]
  rw [hout]
  have hext := extract_of_scan
    ([255, 216] ++
      (((List.range (totalChunksOf iccData)).map
        (fun i => app2Segment (i + 1) (totalChunksOf iccData) (chunkAt iccData i))).flatten ++
      jpegData.drop 2))
    (totalChunksOf iccData) (chunkAt iccData) hT1
    (List.take_left' (by decide))
    (by
      rw [List.drop_left' (by decide)]
      rw [scanChunks_flatten_app2 _ _ (fun i => chunkAt_length_le iccData i), hclean,
        List.append_nil])
  rw [hext, flatten_chunkAt _ _ (length_le_totalChunks_mul iccData)]

/-- C3: for valid JPEG bytes and a non-empty ICC profile of at most 255
chunks, `inject_icc_profile` inserts immediately after Start-Of-Image one
block of APP2 segments, the i-th wrapping the i-th 65519-byte slice with
1-based ascending sequence number i and the shared ceiling-division total
count; every chunk holds at most 65519 payload bytes and the count is at
most 255 (beyond 255 chunks the builder cannot construct a chunk at all:
`bytes([i + 1, total_chunks])` raises, embedded as `none`). -/
theorem inject_icc_chunk_structure (jpegData iccData : List Byte)
    (hsig : jpegData.take 2 = [255, 216]) (hicc : iccData ≠ []) :
    (iccData.length ≤ 255 * maxChunkData →
      inject_icc_profile jpegData iccData =
        some (jpegData.take 2 ++
          ((List.range (totalChunksOf iccData)).map
            (fun i => app2Segment (i + 1) (totalChunksOf iccData) (chunkAt iccData i))).flatten ++
          jpegData.drop 2) ∧
      1 ≤ totalChunksOf iccData ∧ totalChunksOf iccData ≤ 255 ∧
      totalChunksOf iccData = (iccData.length + 65519 - 1) / 65519 ∧
      (∀ i, (chunkAt iccData i).length ≤ 65519) ∧
      (iccData.length ≤ 65519 → totalChunksOf iccData = 1)) ∧
    (255 * maxChunkData < iccData.length →
      inject_icc_profile jpegData iccData = none) := by
  constructor
  · intro hlen
    exact ⟨inject_icc_eq_block hsig hicc hlen, totalChunks_pos hicc, totalChunks_le_255 hlen,
      rfl, fun i => chunkAt_length_le iccData i, fun hs => totalChunks_eq_one hicc hs⟩
  · intro hlen
    unfold inject_icc_profile
    rw [if_neg hicc, if_neg (by simp [hsig]), buildApp2Block_none hlen]
    rfl

/-- Witness for C3 at the concrete JPEG [255, 216, 255, 217] and the
three-byte profile [1, 2, 3]: a single chunk numbered 1 of 1. -/
theorem inject_icc_chunk_structure_witness :
    inject_icc_profile [255, 216, 255, 217] [1, 2, 3] =
      some [255, 216, 255, 226, 0, 19, 73, 67, 67, 95, 80, 82, 79, 70, 73, 76, 69, 0,
        1, 1, 1, 2, 3, 255, 217] ∧
    totalChunksOf [1, 2, 3] = 1 ∧ (chunkAt [1, 2, 3] 0).length ≤ 65519 := by
  have h := (inject_icc_chunk_structure [255, 216, 255, 217] [1, 2, 3]
    (by decide) (by decide)).1 (by decide)
  refine ⟨?_, h.2.2.2.2.2 (by decide), h.2.2.2.2.1 0⟩
  rw [h.1]
  decide

/-- Witness for C4 at the concrete JPEG [255, 216, 255, 217] and profile
[1, 2, 3]. -/
theorem icc_roundtrip_extract_inject_witness :
    ∃ out, inject_icc_profile [255, 216, 255, 217] [1, 2, 3] = some out ∧
      extract_icc_profile out = some [1, 2, 3] :=
  icc_roundtrip_extract_inject [255, 216, 255, 217] [1, 2, 3]
    (by decide) (by decide) (by decide) (by decide)

theorem conflictLoop_free (existing : List String) (originalPath namePart ext : String) :
    ∀ (fuel : Nat) (cur : String) (k : Nat),
      (∃ j < fuel, freePath existing originalPath (candidateSeq namePart ext cur k j)) →
      freePath existing originalPath
        (conflictLoop existing originalPath namePart ext fuel cur k) := by
  intro fuel
  induction fuel with
  | zero =>
    rintro cur k ⟨j, hj, -⟩
    omega
  | succ f ih =>
    rintro cur k ⟨j, hj, hfree⟩
    by_cases hcur : cur ∈ existing ∧ cur ≠ originalPath
    · rw [conflictLoop, if_pos hcur]
      apply ih
      cases j with
      | zero =>
        exfalso
        simp only [candidateSeq, freePath] at hfree
        rcases hfree with h | h
        · exact h hcur.1
        · exact hcur.2 h
      | succ j' =>
        refine ⟨j', by omega, ?_⟩
        cases j' with
        | zero =>
          simpa [candidateSeq] using hfree
        | succ j'' =>
          simp only [candidateSeq] at hfree ⊢
          have harith : k + 1 + j'' = k + (j'' + 1) := by omega
          rw [harith]
          exact hfree
    · rw [conflictLoop, if_neg hcur]
      by_cases hmem : cur ∈ existing
      · right
        by_contra hne
        exact hcur ⟨hmem, hne⟩
      · left
        exact hmem

/-- C9: with overwrite_in_place set, the resolved destination is the
source path, with no renaming or conflict resolution; otherwise the
filename substitutes {name}, {date} and the zero-padded 4-digit {counter}
into the naming template inside the resolved directory, and when the
computed destination exists and differs from the source, numeric
disambiguators _1, _2, ... are tried until a path is found that does not
exist (or is the source path itself, at which point the loop guard
stops); template {name}_optimized on photo.jpg with no output root yields
photo_optimized.jpg in the source directory, and photo_optimized_1.jpg
when photo_optimized.jpg already exists. -/
theorem generate_output_path_spec :
    (∀ (cfg : OutputConfig) (existing : List String)
        (originalDir originalName ext originalPath dateStr : String) (counterVal : Nat),
      cfg.overwriteOriginal = true →
      generate_output_path cfg existing originalDir originalName ext originalPath dateStr
        counterVal = originalPath) ∧
    (∀ (cfg : OutputConfig) (existing : List String)
        (originalDir originalName ext originalPath dateStr : String) (counterVal : Nat),
      cfg.overwriteOriginal = false →
      freePath existing originalPath
        (pathJoin (cfg.outputFolder.getD originalDir)
          (formatTemplate cfg.namingTemplate originalName dateStr (zfill4 counterVal) ++ ext)) →
      generate_output_path cfg existing originalDir originalName ext originalPath dateStr
        counterVal =
        pathJoin (cfg.outputFolder.getD originalDir)
          (formatTemplate cfg.namingTemplate originalName dateStr (zfill4 counterVal) ++ ext)) ∧
    (∀ (cfg : OutputConfig) (existing : List String)
        (originalDir originalName ext originalPath dateStr : String) (counterVal : Nat),
      cfg.overwriteOriginal = false →
      (∃ j < existing.length + 1, freePath existing originalPath
        (candidateSeq
          (pathJoin (cfg.outputFolder.getD originalDir)
            (formatTemplate cfg.namingTemplate originalName dateStr (zfill4 counterVal)))
          ext
          (pathJoin (cfg.outputFolder.getD originalDir)
            (formatTemplate cfg.namingTemplate originalName dateStr (zfill4 counterVal) ++ ext))
          1 j)) →
      freePath existing originalPath
        (generate_output_path cfg existing originalDir originalName ext originalPath dateStr
          counterVal)) ∧
    generate_output_path ⟨none, false, "{name}_optimized"⟩ [] "d" "photo" ".jpg"
      "d/photo.jpg" "20250101_120000" 1 = "d/photo_optimized.jpg" ∧
    generate_output_path ⟨none, false, "{name}_optimized"⟩ ["d/photo_optimized.jpg"] "d"
      "photo" ".jpg" "d/photo.jpg" "20250101_120000" 1 = "d/photo_optimized_1.jpg" := by
  refine ⟨?_, ?_, ?_, by decide, by decide⟩
  · intro cfg existing originalDir originalName ext originalPath dateStr counterVal h
    simp [generate_output_path, h]
  · intro cfg existing originalDir originalName ext originalPath dateStr counterVal h hfree
    simp only [generate_output_path, h, if_false, Bool.false_eq_true]
    rw [conflictLoop, if_neg]
    rcases hfree with hmem | heq
    · exact fun hc => hmem hc.1
    · exact fun hc => hc.2 heq
  · intro cfg existing originalDir originalName ext originalPath dateStr counterVal h hex
    simp only [generate_output_path, h, if_false, Bool.false_eq_true]
    exact conflictLoop_free existing originalPath _ ext _ _ 1 hex

/-- Witness for C9: the overwrite, no-conflict and conflict cases at
concrete paths. -/
theorem generate_output_path_spec_witness :
    generate_output_path ⟨none, true, "{name}_optimized"⟩ [] "d" "photo" ".jpg"
      "d/photo.jpg" "20250101_120000" 1 = "d/photo.jpg" ∧
    generate_output_path ⟨none, false, "{name}_optimized"⟩ [] "d" "photo" ".jpg"
      "d/photo.jpg" "20250101_120000" 1 =
      pathJoin ((none : Option String).getD "d")
        (formatTemplate "{name}_optimized" "photo" "20250101_120000" (zfill4 1) ++ ".jpg") ∧
    freePath ["d/photo_optimized.jpg"] "d/photo.jpg"
      (generate_output_path ⟨none, false, "{name}_optimized"⟩ ["d/photo_optimized.jpg"] "d"
        "photo" ".jpg" "d/photo.jpg" "20250101_120000" 1) :=
  ⟨generate_output_path_spec.1 ⟨none, true, "{name}_optimized"⟩ [] "d" "photo" ".jpg"
      "d/photo.jpg" "20250101_120000" 1 rfl,
   generate_output_path_spec.2.1 ⟨none, false, "{name}_optimized"⟩ [] "d" "photo" ".jpg"
      "d/photo.jpg" "20250101_120000" 1 rfl (by unfold freePath; decide),
   generate_output_path_spec.2.2.1 ⟨none, false, "{name}_optimized"⟩ ["d/photo_optimized.jpg"]
      "d" "photo" ".jpg" "d/photo.jpg" "20250101_120000" 1 rfl (by unfold freePath; decide)⟩
